import Mathlib

/-!
Verification development for the client-side session/signaling state machine of
the voice/avatar conversational client.

Part A models the PCM codec and the binary-to-text transport encoding
(audio utility module: encodePCM16ToBase64, decodeBase64ToPCM16, and
frontend/services/audioUtils.ts: encodeAudio, decodeAudio), with browser
strings embedded as lists of UTF-16 code units (natural numbers) and
float samples embedded as rationals.

Part B models the session orchestrator (the useVoiceAvatar hook): its state,
its WebSocket message handler, the playback queue, the exponential-backoff
reconnection loop, and the WebRTC offer path.
-/

namespace DemoAvatar

/-! ## Part A: base64 transport encoding (btoa / atob) -/

/-- Code of the base64 alphabet character for sextet value n
(A-Z, a-z, 0-9, plus, slash). -/
def sextetToChar (n : Nat) : Nat :=
  if n < 26 then 65 + n
  else if n < 52 then 97 + (n - 26)
  else if n < 62 then 48 + (n - 52)
  else if n = 62 then 43
  else 47

/-- Inverse of the base64 alphabet: char code back to sextet value. -/
def charToSextet (c : Nat) : Option Nat :=
  if 65 ≤ c ∧ c ≤ 90 then some (c - 65)
  else if 97 ≤ c ∧ c ≤ 122 then some (26 + (c - 97))
  else if 48 ≤ c ∧ c ≤ 57 then some (52 + (c - 48))
  else if c = 43 then some 62
  else if c = 47 then some 63
  else none

/-- Core of btoa: encode a byte list three bytes at a time, padding the final
group with the pad character (code 61). -/
def btoaChunks : List Nat → List Nat
  | [] => []
  | [a] => [sextetToChar (a / 4), sextetToChar (a % 4 * 16), 61, 61]
  | [a, b] =>
      [sextetToChar (a / 4), sextetToChar (a % 4 * 16 + b / 16),
       sextetToChar (b % 16 * 4), 61]
  | a :: b :: c :: rest =>
      sextetToChar (a / 4) :: sextetToChar (a % 4 * 16 + b / 16) ::
      sextetToChar (b % 16 * 4 + c / 64) :: sextetToChar (c % 64) ::
      btoaChunks rest

/-- Browser btoa: fails (InvalidCharacterError) when a code unit exceeds 255. -/
def btoa (bs : List Nat) : Option (List Nat) :=
  if bs.all (fun b => b < 256) then some (btoaChunks bs) else none

/-- Core of atob: decode four characters at a time; a padded group may only
appear at the end; a leftover single character is an error. -/
def atobChunks : List Nat → Option (List Nat)
  | [] => some []
  | [_] => none
  | [c0, c1] => do
      let s0 ← charToSextet c0
      let s1 ← charToSextet c1
      pure [s0 * 4 + s1 / 16]
  | [c0, c1, c2] => do
      let s0 ← charToSextet c0
      let s1 ← charToSextet c1
      let s2 ← charToSextet c2
      pure [s0 * 4 + s1 / 16, s1 % 16 * 16 + s2 / 4]
  | c0 :: c1 :: c2 :: c3 :: rest =>
      if c2 = 61 then
        if c3 = 61 ∧ rest = [] then do
          let s0 ← charToSextet c0
          let s1 ← charToSextet c1
          pure [s0 * 4 + s1 / 16]
        else none
      else if c3 = 61 then
        if rest = [] then do
          let s0 ← charToSextet c0
          let s1 ← charToSextet c1
          let s2 ← charToSextet c2
          pure [s0 * 4 + s1 / 16, s1 % 16 * 16 + s2 / 4]
        else none
      else do
        let s0 ← charToSextet c0
        let s1 ← charToSextet c1
        let s2 ← charToSextet c2
        let s3 ← charToSextet c3
        let tail ← atobChunks rest
        pure ((s0 * 4 + s1 / 16) :: (s1 % 16 * 16 + s2 / 4) ::
              (s2 % 4 * 64 + s3) :: tail)

/-- Browser atob on a string given as code units. -/
def atob (s : List Nat) : Option (List Nat) := atobChunks s

/-- encodeAudio (audioUtils.ts): byte buffer to transport text. The
intermediate binary string maps byte i to the character of code byte i, so
the composition is btoa on the byte values. -/
def encodeAudio (bytes : List Nat) : Option (List Nat) := btoa bytes

/-- decodeAudio (audioUtils.ts): transport text back to the byte buffer. -/
def decodeAudio (s : List Nat) : Option (List Nat) := atob s

/-! ## Part A continued: PCM16 codec -/

/-- The clamp applied per sample: max(-1, min(1, x)). -/
def clampUnit (v : ℚ) : ℚ := max (-1) (min 1 v)

/-- Truncation toward zero, the conversion JavaScript applies when a number is
stored into an Int16Array slot (ToInt16; no wrap occurs in the clamped range). -/
def truncTowardZero (q : ℚ) : ℤ := if q < 0 then ⌈q⌉ else ⌊q⌋

/-- One sample of the encoder loop: clamp to [-1,1], scale negative samples by
0x8000 and non-negative ones by 0x7fff, store as a 16-bit integer. -/
def floatSampleToInt16 (v : ℚ) : ℤ :=
  let s := clampUnit v
  if s < 0 then truncTowardZero (s * 32768) else truncTowardZero (s * 32767)

/-- The float-to-PCM16 loop of encodePCM16ToBase64. -/
def floatToPCM16 (xs : List ℚ) : List ℤ := xs.map floatSampleToInt16

/-- Two's-complement 16-bit layout of a signed value in [-32768, 32767]. -/
def int16ToUInt16 (v : ℤ) : Nat := (if v < 0 then v + 65536 else v).toNat

/-- The little-endian byte image of an Int16Array buffer. -/
def int16ToBytesLE (l : List ℤ) : List Nat :=
  l.flatMap (fun v => [int16ToUInt16 v % 256, int16ToUInt16 v / 256])

/-- Reading an unsigned 16-bit pattern back as a signed 16-bit value. -/
def uint16ToInt16 (u : Nat) : ℤ := if u < 32768 then (u : ℤ) else (u : ℤ) - 65536

/-- Reading an even-length byte buffer as little-endian signed 16-bit values
(the Int16Array view over the decoded buffer). -/
def bytesToInt16Core : List Nat → List ℤ
  | b0 :: b1 :: rest => uint16ToInt16 (b0 + 256 * b1) :: bytesToInt16Core rest
  | _ => []

/-- encodePCM16ToBase64: float samples to PCM16 bytes to base64 text. -/
def encodePCM16ToBase64 (xs : List ℚ) : Option (List Nat) :=
  btoa (int16ToBytesLE (floatToPCM16 xs))

/-- decodeBase64ToPCM16: base64 text to bytes, then an Int16Array view
(construction throws on an odd byte length), then division by 32768.
Failure of any step is a thrown error, never a truncated result. -/
def decodeBase64ToPCM16 (s : List Nat) : Option (List ℚ) := do
  let bytes ← atob s
  if bytes.length % 2 = 0 then
    pure ((bytesToInt16Core bytes).map (fun (v : ℤ) => (v : ℚ) / 32768))
  else none

/-! ## Part B: orchestrator data model (useVoiceAvatar hook, part_002 variant) -/

inductive SessionStatus
  | idle
  | connecting
  | connected
  | error
  | disconnected
deriving DecidableEq, Repr

inductive SpeakingState
  | idle
  | user
  | assistant
deriving DecidableEq, Repr

inductive AvatarStatus
  | none
  | connecting
  | connected
  | failed
deriving DecidableEq, Repr

inductive Role
  | user
  | assistant
deriving DecidableEq, Repr

structure TranscriptEntry where
  role : Role
  text : String
  timestamp : Nat
deriving DecidableEq, Repr

/-- Opaque ICE server descriptor (urls and credentials are never inspected by
the orchestrator beyond list length). -/
abbrev IceServer := String

/-- Parsed inbound WebSocket messages, one constructor per switch case of
handleMessage. An absent ice_servers field is the empty list. Audio payloads
are base64 text carried as code units. -/
inductive ServerMessage
  | sessionReady (iceServers : List IceServer)
  | avatarSdp (serverSdp : Option String)
  | avatarConnected
  | avatarError (message : String)
  | userSpeakingStarted
  | userSpeakingStopped
  | assistantResponseStarted
  | assistantSpeakingDone
  | assistantResponseDone
  | assistantResponseCancelled
  | audioDelta (data : Option (List Nat))
  | audioDropped (reason : Option String)
  | transcriptDelta (delta : String)
  | transcript (role : Role) (text : String)
  | modeUpdated (turnBased : Bool)
  | errorMsg (message : String) (code : Option String)
deriving DecidableEq, Repr

/-- Outbound client messages sent over the control channel. -/
inductive ClientMessage
  | audio (data : List Nat)
  | avatarSdp (sdp : String)
  | textInput (text : String)
deriving DecidableEq, Repr

/-- State owned by the hook: React state plus the mutable refs. The playback
queue holds decoded sample buffers; currentSource is the buffer source node
currently playing, none when idle. -/
structure OrchState where
  status : SessionStatus
  speakingState : SpeakingState
  transcripts : List TranscriptEntry
  streamingTranscript : String
  avatarStatus : AvatarStatus
  turnBasedMode : Bool
  wsOpen : Bool
  audioCaptureActive : Bool
  playbackQueue : List (List ℚ)
  isPlaying : Bool
  currentSource : Option (List ℚ)
  peerConnection : Bool
  avatarSdpSent : Bool
  reconnectAttempts : Nat
  shouldReconnect : Bool
deriving DecidableEq, Repr

/-- The state right after the hook mounts, before connect(). -/
def initialOrchState : OrchState where
  status := SessionStatus.idle
  speakingState := SpeakingState.idle
  transcripts := []
  streamingTranscript := ""
  avatarStatus := AvatarStatus.none
  turnBasedMode := false
  wsOpen := false
  audioCaptureActive := false
  playbackQueue := []
  isPlaying := false
  currentSource := none
  peerConnection := false
  avatarSdpSent := false
  reconnectAttempts := 0
  shouldReconnect := false

/-- playNextInQueue: if the queue is empty, mark playback idle; otherwise shift
the head, make it the current source and start it. -/
def playNextInQueue (s : OrchState) : OrchState :=
  match s.playbackQueue with
  | [] => { s with isPlaying := false, currentSource := none }
  | buf :: rest =>
      { s with isPlaying := true, playbackQueue := rest, currentSource := some buf }

/-- playAudioChunk: decode the base64 payload, push the decoded buffer on the
queue, and start playback when nothing is playing. A decode error is caught
and logged, leaving the state unchanged. -/
def playAudioChunk (s : OrchState) (data : List Nat) : OrchState :=
  match decodeBase64ToPCM16 data with
  | none => s
  | some buf =>
      let s1 := { s with playbackQueue := s.playbackQueue ++ [buf] }
      if s1.isPlaying then s1 else playNextInQueue s1

/-- stopAudioPlayback: null the onended continuation of the current source
(so finishing never chains playNextInQueue), stop it inside try/catch, clear
the queue and the playing flag. Total: a missing source is simply skipped. -/
def stopAudioPlayback (s : OrchState) : OrchState :=
  { s with currentSource := none, playbackQueue := [], isPlaying := false }

/-- The content of the local session description produced by createOffer,
opaque runtime data from the model's point of view. -/
def localOfferSdp : String := "local-offer-sdp"

/-- initPeerConnection: construct the RTCPeerConnection with two receive-only
transceivers and store it in the ref. -/
def initPeerConnection (s : OrchState) : OrchState :=
  { s with peerConnection := true }

/-- createAndSendOffer: create the offer, commit it locally, await ICE
gathering, then send the local description when the socket is open (a closed
socket is logged and nothing is sent). -/
def createAndSendOffer (s : OrchState) : OrchState × List ClientMessage :=
  if s.wsOpen then (s, [ClientMessage.avatarSdp localOfferSdp]) else (s, [])

/-- startAudioCapture: acquire the microphone and build the processing graph
(modelled as marking the capture context live). -/
def startAudioCapture (s : OrchState) : OrchState :=
  { s with audioCaptureActive := true }

/-- handleMessage: the switch over inbound message types (part_002 variant,
the revision with the avatarSdpSentRef latch). Returns the updated state and
the client messages sent while handling. -/
def handleMessage (now : Nat) (s : OrchState) (m : ServerMessage) :
    OrchState × List ClientMessage :=
  match m with
  | ServerMessage.sessionReady ice =>
      let s1 := { s with status := SessionStatus.connected }
      let s2 := if s1.audioCaptureActive then s1 else startAudioCapture s1
      if ice.length > 0 then
        if s2.avatarSdpSent then (s2, [])
        else
          let s3 := { s2 with avatarStatus := AvatarStatus.connecting,
                              avatarSdpSent := true }
          createAndSendOffer (initPeerConnection s3)
      else ({ s2 with avatarStatus := AvatarStatus.none }, [])
  | ServerMessage.avatarSdp _ => (s, [])
  | ServerMessage.avatarConnected =>
      ({ s with avatarStatus := AvatarStatus.connected }, [])
  | ServerMessage.avatarError _ =>
      ({ s with avatarStatus := AvatarStatus.failed }, [])
  | ServerMessage.userSpeakingStarted =>
      let s1 := stopAudioPlayback s
      ({ s1 with streamingTranscript := "", speakingState := SpeakingState.user }, [])
  | ServerMessage.userSpeakingStopped =>
      ({ s with speakingState := SpeakingState.idle }, [])
  | ServerMessage.assistantResponseStarted =>
      ({ s with speakingState := SpeakingState.assistant }, [])
  | ServerMessage.assistantSpeakingDone =>
      ({ s with speakingState := SpeakingState.idle }, [])
  | ServerMessage.assistantResponseDone =>
      ({ s with speakingState := SpeakingState.idle }, [])
  | ServerMessage.assistantResponseCancelled =>
      ({ s with speakingState := SpeakingState.idle }, [])
  | ServerMessage.audioDelta data =>
      match data with
      | some d => (playAudioChunk s d, [])
      | none => (s, [])
  | ServerMessage.audioDropped _ => (s, [])
  | ServerMessage.transcriptDelta d =>
      ({ s with streamingTranscript := s.streamingTranscript ++ d }, [])
  | ServerMessage.transcript role text =>
      match role with
      | Role.assistant =>
          ({ s with streamingTranscript := "",
                    transcripts := s.transcripts ++
                      [{ role := Role.assistant, text := text, timestamp := now }] }, [])
      | Role.user =>
          ({ s with transcripts := s.transcripts ++
                      [{ role := Role.user, text := text, timestamp := now }] }, [])
  | ServerMessage.modeUpdated tb => ({ s with turnBasedMode := tb }, [])
  | ServerMessage.errorMsg _ _ => ({ s with status := SessionStatus.error }, [])

/-- Process a sequence of inbound messages, concatenating everything sent. -/
def runMessages (now : Nat) (s : OrchState) :
    List ServerMessage → OrchState × List ClientMessage
  | [] => (s, [])
  | m :: ms =>
      let r := handleMessage now s m
      let rest := runMessages now r.1 ms
      (rest.1, r.2 ++ rest.2)

/-- Recognizer for outbound avatar.sdp messages. -/
def isAvatarSdpSend : ClientMessage → Bool
  | ClientMessage.avatarSdp _ => true
  | _ => false

/-- Recognizer for session.ready messages carrying a non-empty ice_servers
list. -/
def isReadyWithIce : ServerMessage → Bool
  | ServerMessage.sessionReady ice => ice.length > 0
  | _ => false

/-- Number of avatar.sdp client messages in a send trace. -/
def sdpSendCount (l : List ClientMessage) : Nat := l.countP isAvatarSdpSend

/-- disconnect(): clear the reconnect intent and counter, run cleanup
(teardown of capture, playback, peer connection, socket, and the SDP latch),
and reset the published state. -/
def disconnectTransition (s : OrchState) : OrchState :=
  { s with shouldReconnect := false, reconnectAttempts := 0,
           audioCaptureActive := false, currentSource := none,
           playbackQueue := [], isPlaying := false, peerConnection := false,
           wsOpen := false, avatarSdpSent := false,
           status := SessionStatus.disconnected,
           speakingState := SpeakingState.idle,
           avatarStatus := AvatarStatus.none, streamingTranscript := "" }

/-! ## Part B continued: reconnection with exponential backoff -/

/-- Fate of a socket created by a reconnection attempt. -/
inductive SocketOutcome
  | opens
  | closes
deriving DecidableEq, Repr

/-- reconnectWithBackoff, as a pure run: attempts and should mirror
reconnectAttemptsRef and shouldReconnectRef on entry; the head of
disconnectDuringWait says whether disconnect() lands during the pending
backoff wait (flipping the flag the post-wait check reads, and zeroing the
counter); outcomes gives the fate of each socket the loop creates, a closure
re-entering the loop. Returns (delays waited, sockets created, final
counter, final flag). -/
def reconnectWithBackoff (maxAttempts attempts : Nat) (should : Bool)
    (disconnectDuringWait : List Bool) (outcomes : List SocketOutcome) :
    List Nat × Nat × Nat × Bool :=
  if should = false then ([], 0, attempts, should)
  else if maxAttempts ≤ attempts then ([], 0, attempts, false)
  else
    let delay := 1000 * 2 ^ attempts
    if disconnectDuringWait.headD false then ([delay], 0, 0, false)
    else
      match outcomes with
      | [] => ([delay], 1, attempts + 1, should)
      | SocketOutcome.opens :: _ => ([delay], 1, 0, false)
      | SocketOutcome.closes :: rest =>
          let r := reconnectWithBackoff maxAttempts (attempts + 1) should
            disconnectDuringWait.tail rest
          (delay :: r.1, r.2.1 + 1, r.2.2)
termination_by outcomes.length
decreasing_by simp_wf

/-! ## Part B continued: WebRTC offer path (WebRTCService) -/

/-- Model of the peer connection as seen by createOffer: whether init ran, and
the instant (ms from the start of the wait) at which ICE gathering reports
completion, none when it never does. -/
structure PeerConnectionModel where
  isInit : Bool
  gatherCompleteAt : Option Nat
deriving DecidableEq, Repr

/-- Time the waitForIceGathering promise suspends: it resolves at the
gathering-complete event or at the 5000 ms timeout, whichever is first
(immediately when gathering is already complete, gatherCompleteAt = some 0). -/
def waitForIceGathering (gatherCompleteAt : Option Nat) : Nat :=
  match gatherCompleteAt with
  | none => 5000
  | some t => min t 5000

/-- createOffer: throws when the peer connection is not initialized, otherwise
commits the local description, awaits waitForIceGathering, and returns the
finalized local description together with the time spent suspended. -/
def createOffer (pc : PeerConnectionModel) : Option (Nat × String) :=
  if pc.isInit then some (waitForIceGathering pc.gatherCompleteAt, localOfferSdp)
  else none

/-! ## Lemmas about the base64 alphabet -/

theorem sextetToChar_lt_256 (n : Nat) : sextetToChar n < 256 := by
  unfold sextetToChar
  split_ifs <;> omega

theorem sextetToChar_ne_pad (n : Nat) : sextetToChar n ≠ 61 := by
  unfold sextetToChar
  split_ifs <;> omega

theorem charToSextet_sextetToChar {n : Nat} (h : n < 64) :
    charToSextet (sextetToChar n) = some n := by
  have hd : ∀ m : Fin 64, charToSextet (sextetToChar m.val) = some m.val := by decide
  exact hd ⟨n, h⟩

/-- Decoding inverts encoding chunk by chunk. -/
theorem atobChunks_btoaChunks :
    ∀ bs : List Nat, (∀ b ∈ bs, b < 256) → atobChunks (btoaChunks bs) = some bs
  | [], _ => rfl
  | [a], h => by
      have ha : a < 256 := h a (by simp)
      have h0 := charToSextet_sextetToChar (n := a / 4) (by omega)
      have h1 := charToSextet_sextetToChar (n := a % 4 * 16) (by omega)
      simp [btoaChunks, atobChunks, h0, h1]
      omega
  | [a, b], h => by
      have ha : a < 256 := h a (by simp)
      have hb : b < 256 := h b (by simp)
      have h0 := charToSextet_sextetToChar (n := a / 4) (by omega)
      have h1 := charToSextet_sextetToChar (n := a % 4 * 16 + b / 16) (by omega)
      have h2 := charToSextet_sextetToChar (n := b % 16 * 4) (by omega)
      have hne : sextetToChar (b % 16 * 4) ≠ 61 := sextetToChar_ne_pad _
      simp [btoaChunks, atobChunks, hne, h0, h1, h2]
      constructor <;> omega
  | a :: b :: c :: rest, h => by
      have ha : a < 256 := h a (by simp)
      have hb : b < 256 := h b (by simp)
      have hc : c < 256 := h c (by simp)
      have hrest : ∀ x ∈ rest, x < 256 := fun x hx => h x (by simp [hx])
      have h0 := charToSextet_sextetToChar (n := a / 4) (by omega)
      have h1 := charToSextet_sextetToChar (n := a % 4 * 16 + b / 16) (by omega)
      have h2 := charToSextet_sextetToChar (n := b % 16 * 4 + c / 64) (by omega)
      have h3 := charToSextet_sextetToChar (n := c % 64) (by omega)
      have hne2 : sextetToChar (b % 16 * 4 + c / 64) ≠ 61 := sextetToChar_ne_pad _
      have hne3 : sextetToChar (c % 64) ≠ 61 := sextetToChar_ne_pad _
      have ih := atobChunks_btoaChunks rest hrest
      simp [btoaChunks, atobChunks, hne2, hne3, h0, h1, h2, h3, ih]
      refine ⟨by omega, by omega, by omega⟩

/-- btoa succeeds exactly on byte values and atob undoes it. -/
theorem atob_btoa (bs : List Nat) (h : ∀ b ∈ bs, b < 256) :
    btoa bs = some (btoaChunks bs) ∧ atob (btoaChunks bs) = some bs := by
  constructor
  · unfold btoa
    rw [if_pos]
    simpa [List.all_eq_true, decide_eq_true_eq] using h
  · exact atobChunks_btoaChunks bs h

/-- C9: for every even-length byte buffer, the transport-text round trip under
the implemented base64 encode (encodeAudio) and decode (decodeAudio) is
lossless. -/
theorem encodeAudio_decodeAudio_roundtrip (b : List Nat)
    (_hlen : b.length % 2 = 0) (hb : ∀ x ∈ b, x < 256) :
    ∃ s, encodeAudio b = some s ∧ decodeAudio s = some b := by
  refine ⟨btoaChunks b, ?_, ?_⟩
  · exact (atob_btoa b hb).1
  · exact (atob_btoa b hb).2

/-- Witness for C9 at a concrete even-length buffer. -/
theorem encodeAudio_decodeAudio_roundtrip_witness :
    ([1, 2, 254, 255] : List Nat).length % 2 = 0 ∧
    (∀ x ∈ ([1, 2, 254, 255] : List Nat), x < 256) ∧
    ∃ s, encodeAudio [1, 2, 254, 255] = some s ∧ decodeAudio s = some [1, 2, 254, 255] :=
  ⟨by decide, by decide,
   encodeAudio_decodeAudio_roundtrip [1, 2, 254, 255] (by decide) (by decide)⟩

/-! ## Lemmas about the PCM16 codec -/

theorem clampUnit_eq_self {x : ℚ} (h1 : -1 ≤ x) (h2 : x ≤ 1) : clampUnit x = x := by
  unfold clampUnit
  rw [min_eq_right h2, max_eq_right h1]

theorem floatSampleToInt16_lower (v : ℚ) : -32768 ≤ floatSampleToInt16 v := by
  have hc1 : -1 ≤ clampUnit v := le_max_left _ _
  simp only [floatSampleToInt16, truncTowardZero]
  split_ifs with hneg hq hq
  · have hy : (-32768 : ℚ) ≤ clampUnit v * 32768 := by nlinarith
    have := hy.trans (Int.le_ceil _)
    exact_mod_cast this
  · have hy : (-32768 : ℚ) ≤ clampUnit v * 32768 := by nlinarith
    exact Int.le_floor.mpr (by exact_mod_cast hy)
  · have h0 : (0 : ℚ) ≤ clampUnit v := le_of_not_lt hneg
    exact absurd hq (not_lt.mpr (by positivity))
  · have h0 : (0 : ℚ) ≤ clampUnit v := le_of_not_lt hneg
    have hnn : (0 : ℚ) ≤ clampUnit v * 32767 := by positivity
    have hf : (0 : ℤ) ≤ ⌊clampUnit v * 32767⌋ := Int.floor_nonneg.mpr hnn
    omega

theorem floatSampleToInt16_upper (v : ℚ) : floatSampleToInt16 v ≤ 32767 := by
  have hc2 : clampUnit v ≤ 1 := max_le (by norm_num) (min_le_left _ _)
  simp only [floatSampleToInt16, truncTowardZero]
  split_ifs with hneg hq hq
  · have hy : clampUnit v * 32768 ≤ 0 := by nlinarith
    have hce : ⌈clampUnit v * 32768⌉ ≤ 0 := Int.ceil_le.mpr (by exact_mod_cast hy)
    omega
  · exact absurd (by nlinarith : clampUnit v * 32768 < 0) hq
  · have h0 : (0 : ℚ) ≤ clampUnit v := le_of_not_lt hneg
    exact absurd hq (not_lt.mpr (by positivity))
  · have hy : clampUnit v * 32767 ≤ 32767 := by nlinarith
    have := Int.floor_le_floor hy
    have h2 : ⌊(32767 : ℚ)⌋ = 32767 := by norm_num
    omega

/-- Per-sample quantization error of encode-then-decode, with the corrected
bound 1/16384 = 2/32768 (the asymmetric 32767 scale against the 32768 descale
costs up to one extra quantum on positive samples). -/
theorem pcm_sample_err {x : ℚ} (h1 : -1 ≤ x) (h2 : x ≤ 1) :
    |((floatSampleToInt16 x : ℚ)) / 32768 - x| ≤ 1 / 16384 := by
  simp only [floatSampleToInt16, truncTowardZero]
  rw [clampUnit_eq_self h1 h2]
  by_cases hx : x < 0
  · have hq : x * 32768 < 0 := by nlinarith
    rw [if_pos hx, if_pos hq]
    have hA : (⌈x * 32768⌉ : ℚ) < x * 32768 + 1 := Int.ceil_lt_add_one _
    have hB : x * 32768 ≤ (⌈x * 32768⌉ : ℚ) := Int.le_ceil _
    rw [abs_le]
    constructor <;> nlinarith
  · have h0 : (0 : ℚ) ≤ x := le_of_not_lt hx
    have hq : ¬ x * 32767 < 0 := not_lt.mpr (by positivity)
    rw [if_neg hx, if_neg hq]
    have hA : (⌊x * 32767⌋ : ℚ) ≤ x * 32767 := Int.floor_le _
    have hB : x * 32767 - 1 < (⌊x * 32767⌋ : ℚ) := Int.sub_one_lt_floor _
    rw [abs_le]
    constructor <;> nlinarith

/-- The two little-endian bytes of an in-range 16-bit value read back as the
same value. -/
theorem uint16_bytes_roundtrip {v : ℤ} (hlo : -32768 ≤ v) (hhi : v ≤ 32767) :
    uint16ToInt16 (int16ToUInt16 v % 256 + 256 * (int16ToUInt16 v / 256)) = v := by
  unfold int16ToUInt16 uint16ToInt16
  split_ifs <;> omega

theorem int16ToUInt16_lt {v : ℤ} (hlo : -32768 ≤ v) (hhi : v ≤ 32767) :
    int16ToUInt16 v < 65536 := by
  unfold int16ToUInt16
  split_ifs <;> omega

/-- The Int16Array byte image decodes back to the same signed values. -/
theorem bytesToInt16Core_int16ToBytesLE :
    ∀ l : List ℤ, (∀ v ∈ l, -32768 ≤ v ∧ v ≤ 32767) →
      bytesToInt16Core (int16ToBytesLE l) = l
  | [], _ => rfl
  | v :: rest, h => by
      have hv := h v (by simp)
      have hrest : ∀ x ∈ rest, -32768 ≤ x ∧ x ≤ 32767 := fun x hx => h x (by simp [hx])
      simp only [int16ToBytesLE, List.flatMap_cons]
      show bytesToInt16Core
        (int16ToUInt16 v % 256 :: int16ToUInt16 v / 256 :: rest.flatMap _) = v :: rest
      rw [bytesToInt16Core]
      rw [uint16_bytes_roundtrip hv.1 hv.2]
      exact congrArg (v :: ·) (bytesToInt16Core_int16ToBytesLE rest hrest)

theorem int16ToBytesLE_length (l : List ℤ) :
    (int16ToBytesLE l).length = 2 * l.length := by
  induction l with
  | nil => rfl
  | cons v rest ih =>
      simp only [int16ToBytesLE, List.flatMap_cons] at ih ⊢
      simp [ih]
      omega

theorem int16ToBytesLE_lt_256 (l : List ℤ)
    (h : ∀ v ∈ l, -32768 ≤ v ∧ v ≤ 32767) :
    ∀ b ∈ int16ToBytesLE l, b < 256 := by
  intro b hb
  simp only [int16ToBytesLE, List.mem_flatMap] at hb
  obtain ⟨v, hv, hbv⟩ := hb
  have := int16ToUInt16_lt (h v hv).1 (h v hv).2
  simp only [List.mem_cons, List.mem_singleton] at hbv
  rcases hbv with h1 | h1 | h1
  · omega
  · omega
  · simp at h1

/-- C8, amended: encode-then-decode succeeds on samples in [-1, 1] and
reproduces each sample within 1/16384 (= 2/32768). -/
theorem pcm_roundtrip_within_1_16384 (xs : List ℚ)
    (h : ∀ x ∈ xs, -1 ≤ x ∧ x ≤ 1) :
    ∃ s ys, encodePCM16ToBase64 xs = some s ∧ decodeBase64ToPCM16 s = some ys ∧
      ys.length = xs.length ∧
      ∀ (i : Nat) (hi : i < ys.length) (hx : i < xs.length),
        |ys.get ⟨i, hi⟩ - xs.get ⟨i, hx⟩| ≤ 1 / 16384 := by
  have hrange : ∀ v ∈ floatToPCM16 xs, -32768 ≤ v ∧ v ≤ 32767 := by
    intro v hv
    simp only [floatToPCM16, List.mem_map] at hv
    obtain ⟨x, _, rfl⟩ := hv
    exact ⟨floatSampleToInt16_lower x, floatSampleToInt16_upper x⟩
  have hbytes : ∀ b ∈ int16ToBytesLE (floatToPCM16 xs), b < 256 :=
    int16ToBytesLE_lt_256 _ hrange
  obtain ⟨henc, hdec⟩ := atob_btoa (int16ToBytesLE (floatToPCM16 xs)) hbytes
  refine ⟨btoaChunks (int16ToBytesLE (floatToPCM16 xs)),
    (floatToPCM16 xs).map (fun (v : ℤ) => (v : ℚ) / 32768), ?_, ?_, ?_, ?_⟩
  · exact henc
  · unfold decodeBase64ToPCM16
    rw [hdec]
    have heven : (int16ToBytesLE (floatToPCM16 xs)).length % 2 = 0 := by
      rw [int16ToBytesLE_length]
      omega
    simp [heven, bytesToInt16Core_int16ToBytesLE _ hrange]
  · simp [floatToPCM16]
  · intro i hi hx
    have hmem : xs.get ⟨i, hx⟩ ∈ xs := xs.get_mem i hx
    simp only [List.get_eq_getElem, floatToPCM16, List.getElem_map]
    simpa using pcm_sample_err (h _ hmem).1 (h _ hmem).2

/-- Witness for the amended C8 at a concrete sample list. -/
theorem pcm_roundtrip_within_1_16384_witness :
    (∀ x ∈ ([1, -1, 0] : List ℚ), -1 ≤ x ∧ x ≤ 1) ∧
    ∃ s ys, encodePCM16ToBase64 [1, -1, 0] = some s ∧
      decodeBase64ToPCM16 s = some ys ∧ ys.length = ([1, -1, 0] : List ℚ).length ∧
      ∀ (i : Nat) (hi : i < ys.length) (hx : i < ([1, -1, 0] : List ℚ).length),
        |ys.get ⟨i, hi⟩ - ([1, -1, 0] : List ℚ).get ⟨i, hx⟩| ≤ 1 / 16384 :=
  ⟨by decide, pcm_roundtrip_within_1_16384 [1, -1, 0] (by decide)⟩

/-- C8 counterexample: at the representable sample 49151/65536, the decoded
value differs from the input by 3/65536, exceeding the claimed 1/32768. -/
theorem pcm_roundtrip_one_quantum_fails :
    ((-1 : ℚ) ≤ 49151 / 65536 ∧ (49151 : ℚ) / 65536 ≤ 1) ∧
    encodePCM16ToBase64 [(49151 : ℚ) / 65536] = some [47, 108, 56, 61] ∧
    decodeBase64ToPCM16 [47, 108, 56, 61] = some [(12287 : ℚ) / 16384] ∧
    ¬ (|(12287 : ℚ) / 16384 - 49151 / 65536| ≤ 1 / 32768) := by
  have hfloor : floatSampleToInt16 ((49151 : ℚ) / 65536) = 24574 := by
    unfold floatSampleToInt16 clampUnit truncTowardZero
    rw [min_eq_right (by norm_num), max_eq_right (by norm_num)]
    rw [if_neg (by norm_num), if_neg (by norm_num)]
    rw [Int.floor_eq_iff]
    constructor <;> norm_num
  refine ⟨by norm_num, ?_, ?_, by rw [abs_le]; norm_num⟩
  · unfold encodePCM16ToBase64 floatToPCM16
    rw [List.map_singleton, hfloor]
    decide
  · have hatob : atob [47, 108, 56, 61] = some [254, 95] := by decide
    have hcore : bytesToInt16Core [254, 95] = [24574] := by decide
    unfold decodeBase64ToPCM16
    rw [hatob]
    simp [hcore]
    norm_num

/-! ## C10: decoder shape -/

theorem bytesToInt16Core_length :
    ∀ bs : List Nat, (bytesToInt16Core bs).length = bs.length / 2
  | [] => rfl
  | [_] => by simp [bytesToInt16Core]
  | b0 :: b1 :: rest => by
      have ih := bytesToInt16Core_length rest
      simp only [bytesToInt16Core, List.length_cons, ih]
      omega

theorem bytesToInt16Core_index :
    ∀ (bs : List Nat) (i b0 b1 : Nat),
      bs.get? (2 * i) = some b0 → bs.get? (2 * i + 1) = some b1 →
      (bytesToInt16Core bs).get? i = some (uint16ToInt16 (b0 + 256 * b1))
  | [], i, b0, b1 => by simp
  | [x], i, b0, b1 => by
      intro h0 h1
      have : ([x] : List Nat).get? (2 * i + 1) = none :=
        List.get?_eq_none.mpr (by simp)
      rw [this] at h1
      exact absurd h1 (by simp)
  | bx :: by_ :: rest, i, b0, b1 => by
      cases i with
      | zero =>
          intro h0 h1
          simp only [Nat.mul_zero, List.get?] at h0 h1
          simp only [bytesToInt16Core, List.get?]
          rw [Option.some_inj] at h0 h1
          rw [h0, h1]
      | succ j =>
          intro h0 h1
          have e0 : 2 * (j + 1) = 2 * j + 1 + 1 := by ring
          have e1 : 2 * (j + 1) + 1 = 2 * j + 1 + 1 + 1 := by ring
          rw [e0, List.get?_cons_succ, List.get?_cons_succ] at h0
          rw [e1, List.get?_cons_succ, List.get?_cons_succ] at h1
          have ih := bytesToInt16Core_index rest j b0 b1 h0 h1
          simpa [bytesToInt16Core] using ih

/-- C10: for a base64 input whose decoded byte length is odd, the PCM16
decoder throws (never truncates or zero-fills); for an even decoded length it
returns exactly length/2 samples, sample i being the little-endian signed
16-bit value at byte offset 2i divided by 32768. -/
theorem decodeBase64ToPCM16_shape (s bytes : List Nat) (hd : atob s = some bytes) :
    (bytes.length % 2 = 1 → decodeBase64ToPCM16 s = none) ∧
    (bytes.length % 2 = 0 → ∃ samples, decodeBase64ToPCM16 s = some samples ∧
      samples.length = bytes.length / 2 ∧
      ∀ i b0 b1, bytes.get? (2 * i) = some b0 → bytes.get? (2 * i + 1) = some b1 →
        samples.get? i = some ((uint16ToInt16 (b0 + 256 * b1) : ℚ) / 32768)) :=
  by
  constructor
  · intro hodd
    unfold decodeBase64ToPCM16
    rw [hd]
    have : ¬ bytes.length % 2 = 0 := by omega
    simp [this]
  · intro heven
    refine ⟨(bytesToInt16Core bytes).map (fun (v : ℤ) => (v : ℚ) / 32768), ?_, ?_, ?_⟩
    · unfold decodeBase64ToPCM16
      rw [hd]
      simp [heven]
    · rw [List.length_map, bytesToInt16Core_length]
    · intro i b0 b1 h0 h1
      rw [List.get?_map, bytesToInt16Core_index bytes i b0 b1 h0 h1]
      rfl

/-- Witness for C10: an odd-length decode throws, an even-length decode
returns indexed samples. -/
theorem decodeBase64ToPCM16_shape_witness :
    (atob [81, 81, 61, 61] = some [65] ∧ decodeBase64ToPCM16 [81, 81, 61, 61] = none) ∧
    (atob [47, 108, 56, 61] = some [254, 95] ∧
      ∃ samples, decodeBase64ToPCM16 [47, 108, 56, 61] = some samples ∧
        samples.length = ([254, 95] : List Nat).length / 2 ∧
        ∀ i b0 b1, ([254, 95] : List Nat).get? (2 * i) = some b0 →
          ([254, 95] : List Nat).get? (2 * i + 1) = some b1 →
          samples.get? i = some ((uint16ToInt16 (b0 + 256 * b1) : ℚ) / 32768)) :=
  ⟨⟨by decide, (decodeBase64ToPCM16_shape [81, 81, 61, 61] [65] (by decide)).1 (by decide)⟩,
   ⟨by decide, (decodeBase64ToPCM16_shape [47, 108, 56, 61] [254, 95] (by decide)).2 (by decide)⟩⟩

/-! ## C5: barge-in flush -/

/-- C5: on user.speaking.started the current source is stopped with its
completion continuation suppressed (currentSource cleared, no playNextInQueue
chaining), the queue becomes empty, the streaming accumulator becomes empty,
and SpeakingState becomes user; the handler is total, so nothing throws when
nothing is playing. -/
theorem userSpeakingStarted_flushes (now : Nat) (s : OrchState) :
    handleMessage now s ServerMessage.userSpeakingStarted =
      ({ s with currentSource := none, playbackQueue := [], isPlaying := false,
                streamingTranscript := "", speakingState := SpeakingState.user }, []) := rfl

/-! ## C2: audio.delta is not gated on AvatarMediaStatus in this handler -/

/-- The state used to exhibit the missing gate: avatar media connected, a
source already playing. -/
def avatarConnectedState : OrchState :=
  { initialOrchState with
      wsOpen := true
      avatarStatus := AvatarStatus.connected
      isPlaying := true
      currentSource := some [0] }

/-- C2 (code bug evaluation): with AvatarMediaStatus connected, an audio.delta
message is still decoded and enqueued into the playback queue by the part_002
handler; nothing inspects avatarStatus on this path. -/
theorem audioDelta_enqueued_despite_avatar_connected :
    (handleMessage 0 avatarConnectedState
        (ServerMessage.audioDelta (some [47, 108, 56, 61]))).1.playbackQueue ≠ [] ∧
    (handleMessage 0 avatarConnectedState
        (ServerMessage.audioDelta (some [47, 108, 56, 61]))).1.avatarStatus
      = AvatarStatus.connected := by
  have hdec : decodeBase64ToPCM16 [47, 108, 56, 61] = some [(12287 : ℚ) / 16384] := by
    have hatob : atob [47, 108, 56, 61] = some [254, 95] := by decide
    have hcore : bytesToInt16Core [254, 95] = [24574] := by decide
    unfold decodeBase64ToPCM16
    rw [hatob]
    simp [hcore]
    norm_num
  constructor
  · simp [handleMessage, playAudioChunk, hdec, avatarConnectedState, initialOrchState]
  · simp [handleMessage, playAudioChunk, hdec, avatarConnectedState, initialOrchState]

/-! ## C6: transcript accumulation and finalization -/

theorem stringAppendAssocLocal (a b c : String) : a ++ b ++ c = a ++ (b ++ c) := by
  apply String.ext
  simp [String.data_append]

theorem foldlAppendEqJoin :
    ∀ (ds : List String) (acc : String),
      ds.foldl (fun a d => a ++ d) acc = acc ++ String.join ds := by
  intro ds
  induction ds with
  | nil =>
      intro acc
      simp [String.join]
  | cons d ds ih =>
      intro acc
      have h1 : String.join (d :: ds) = d ++ String.join ds := by
        show (d :: ds).foldl (fun a b => a ++ b) "" = d ++ String.join ds
        rw [List.foldl_cons, ih ("" ++ d)]
        apply String.ext
        simp [String.data_append]
      rw [List.foldl_cons, ih (acc ++ d), h1, stringAppendAssocLocal]

/-- Processing a run of transcript.delta messages only appends the deltas, in
order, to the streaming accumulator. -/
theorem runMessages_deltas (now : Nat) :
    ∀ (ds : List String) (s : OrchState),
      (runMessages now s (ds.map ServerMessage.transcriptDelta)).1 =
        { s with streamingTranscript :=
            ds.foldl (fun a d => a ++ d) s.streamingTranscript } := by
  intro ds
  induction ds with
  | nil => intro s; rfl
  | cons d ds ih =>
      intro s
      show (runMessages now s
          (ServerMessage.transcriptDelta d :: ds.map ServerMessage.transcriptDelta)).1 = _
      rw [runMessages]
      simp only [handleMessage]
      rw [ih]
      rfl

/-- C6: the streaming accumulator equals the prior content followed by the
concatenation of the deltas in arrival order, transcripts are untouched by
deltas; a finalized assistant transcript clears the accumulator and appends
exactly one entry carrying the finalized text (superseding, not
concatenating, the streamed text); a finalized user transcript is appended
directly and leaves the accumulator alone. -/
theorem transcript_stream_and_finalize (now : Nat) (s : OrchState)
    (ds : List String) (t : String) :
    ((runMessages now s (ds.map ServerMessage.transcriptDelta)).1.streamingTranscript
        = s.streamingTranscript ++ String.join ds) ∧
    ((runMessages now s (ds.map ServerMessage.transcriptDelta)).1.transcripts
        = s.transcripts) ∧
    (∀ s1 : OrchState,
      (handleMessage now s1 (ServerMessage.transcript Role.assistant t)).1.streamingTranscript
          = "" ∧
      (handleMessage now s1 (ServerMessage.transcript Role.assistant t)).1.transcripts
          = s1.transcripts ++ [{ role := Role.assistant, text := t, timestamp := now }] ∧
      (handleMessage now s1 (ServerMessage.transcript Role.user t)).1.transcripts
          = s1.transcripts ++ [{ role := Role.user, text := t, timestamp := now }] ∧
      (handleMessage now s1 (ServerMessage.transcript Role.user t)).1.streamingTranscript
          = s1.streamingTranscript) := by
  refine ⟨?_, ?_, ?_⟩
  · rw [runMessages_deltas now ds s]
    exact foldlAppendEqJoin ds s.streamingTranscript
  · rw [runMessages_deltas now ds s]
  · intro s1
    refine ⟨rfl, rfl, rfl, rfl⟩

/-! ## C1: the avatar.sdp latch -/

theorem playNextInQueue_fields (s : OrchState) :
    (playNextInQueue s).wsOpen = s.wsOpen ∧
    (playNextInQueue s).avatarSdpSent = s.avatarSdpSent := by
  unfold playNextInQueue
  split <;> exact ⟨rfl, rfl⟩

theorem playAudioChunk_fields (s : OrchState) (d : List Nat) :
    (playAudioChunk s d).wsOpen = s.wsOpen ∧
    (playAudioChunk s d).avatarSdpSent = s.avatarSdpSent := by
  unfold playAudioChunk
  split
  · exact ⟨rfl, rfl⟩
  · dsimp only
    split
    · exact ⟨rfl, rfl⟩
    · exact playNextInQueue_fields _

/-- The handler never opens or closes the socket. -/
theorem handleMessage_wsOpen (now : Nat) (s : OrchState) (m : ServerMessage) :
    (handleMessage now s m).1.wsOpen = s.wsOpen := by
  cases m
  case sessionReady ice =>
      simp only [handleMessage, startAudioCapture, initPeerConnection, createAndSendOffer]
      split_ifs <;> rfl
  case audioDelta data =>
      cases data with
      | none => rfl
      | some d => exact (playAudioChunk_fields s d).1
  case transcript role text => cases role <;> rfl
  all_goals rfl

/-- Once the latch is set, no later message sends another offer and the latch
stays set. -/
theorem handleMessage_latch_mono (now : Nat) (s : OrchState) (m : ServerMessage)
    (h : s.avatarSdpSent = true) :
    (handleMessage now s m).1.avatarSdpSent = true ∧
    sdpSendCount (handleMessage now s m).2 = 0 := by
  cases m
  case sessionReady ice =>
      simp only [handleMessage, startAudioCapture, initPeerConnection, createAndSendOffer]
      split_ifs <;> simp_all [sdpSendCount, isAvatarSdpSend]
  case audioDelta data =>
      cases data with
      | none => exact ⟨h, rfl⟩
      | some d => exact ⟨(playAudioChunk_fields s d).2.trans h, rfl⟩
  case transcript role text => cases role <;> exact ⟨h, rfl⟩
  all_goals exact ⟨h, rfl⟩

/-- A session.ready with ICE servers, hitting a cleared latch on an open
socket, sets the latch and sends exactly one avatar.sdp message. -/
theorem handleMessage_ready_fresh (now : Nat) (s : OrchState) (ice : List IceServer)
    (h : s.avatarSdpSent = false) (hws : s.wsOpen = true) (hice : ice.length > 0) :
    (handleMessage now s (ServerMessage.sessionReady ice)).1.avatarSdpSent = true ∧
    sdpSendCount (handleMessage now s (ServerMessage.sessionReady ice)).2 = 1 := by
  simp only [handleMessage, startAudioCapture, initPeerConnection, createAndSendOffer]
  split_ifs <;> simp_all [sdpSendCount, isAvatarSdpSend, List.countP_cons]

/-- Any message that is not a ready-with-ice neither touches the latch nor
sends an offer. -/
theorem handleMessage_not_ready (now : Nat) (s : OrchState) (m : ServerMessage)
    (h : isReadyWithIce m = false) :
    (handleMessage now s m).1.avatarSdpSent = s.avatarSdpSent ∧
    sdpSendCount (handleMessage now s m).2 = 0 := by
  cases m
  case sessionReady ice =>
      have hne : ¬ ice.length > 0 := by simpa [isReadyWithIce] using h
      simp only [handleMessage]
      rw [if_neg hne]
      constructor
      · split_ifs <;> rfl
      · rfl
  case audioDelta data =>
      cases data with
      | none => exact ⟨rfl, rfl⟩
      | some d => exact ⟨(playAudioChunk_fields s d).2, rfl⟩
  case transcript role text => cases role <;> exact ⟨rfl, rfl⟩
  all_goals exact ⟨rfl, rfl⟩

/-- A latched run sends no offers. -/
theorem runMessages_latched (now : Nat) :
    ∀ (ms : List ServerMessage) (s : OrchState), s.avatarSdpSent = true →
      sdpSendCount (runMessages now s ms).2 = 0
  | [], _, _ => rfl
  | m :: ms, s, h => by
      rw [runMessages]
      have h1 := handleMessage_latch_mono now s m h
      have h2 := runMessages_latched now ms (handleMessage now s m).1 h1.1
      simp only [sdpSendCount, List.countP_append] at h1 h2 ⊢
      omega

/-- A fresh run on an open socket that sees at least one ready-with-ice sends
exactly one offer. -/
theorem runMessages_one (now : Nat) :
    ∀ (ms : List ServerMessage) (s : OrchState), s.avatarSdpSent = false →
      s.wsOpen = true → 0 < ms.countP isReadyWithIce →
      sdpSendCount (runMessages now s ms).2 = 1
  | [], _, _, _, h3 => by simp at h3
  | m :: ms, s, h1, h2, h3 => by
      rw [runMessages]
      cases hx : isReadyWithIce m with
      | true =>
          cases m <;> simp [isReadyWithIce] at hx
          case sessionReady ice =>
            have hice : ice.length > 0 := hx
            have hr := handleMessage_ready_fresh now s ice h1 h2 hice
            have hrest := runMessages_latched now ms (handleMessage now s
              (ServerMessage.sessionReady ice)).1 hr.1
            simp only [sdpSendCount, List.countP_append] at hr hrest ⊢
            omega
      | false =>
          have hnr := handleMessage_not_ready now s m hx
          have h1x : (handleMessage now s m).1.avatarSdpSent = false := hnr.1.trans h1
          have h2x : (handleMessage now s m).1.wsOpen = true :=
            (handleMessage_wsOpen now s m).trans h2
          have h3x : 0 < ms.countP isReadyWithIce := by
            have hc : (m :: ms).countP isReadyWithIce = ms.countP isReadyWithIce := by
              rw [List.countP_cons]
              simp [hx]
            omega
          have htail := runMessages_one now ms (handleMessage now s m).1 h1x h2x h3x
          simp only [sdpSendCount, List.countP_append] at hnr htail ⊢
          omega

/-- C1: on one media-session lifecycle (socket open, latch cleared at
connect), a message sequence containing two or more session.ready messages
with non-empty ice_servers produces exactly one outbound avatar.sdp: the
first ready triggers negotiation, later ones are latched out. -/
theorem avatar_sdp_sent_once (now : Nat) (s : OrchState) (ms : List ServerMessage)
    (hws : s.wsOpen = true) (hlatch : s.avatarSdpSent = false)
    (hready : 2 ≤ ms.countP isReadyWithIce) :
    sdpSendCount (runMessages now s ms).2 = 1 :=
  runMessages_one now ms s hlatch hws (by omega)

/-- Witness for C1 with two duplicate ready messages. -/
theorem avatar_sdp_sent_once_witness :
    ({ initialOrchState with wsOpen := true } : OrchState).wsOpen = true ∧
    ({ initialOrchState with wsOpen := true } : OrchState).avatarSdpSent = false ∧
    2 ≤ ([ServerMessage.sessionReady ["stun-a"],
          ServerMessage.sessionReady ["stun-a"]].countP isReadyWithIce) ∧
    sdpSendCount (runMessages 0 { initialOrchState with wsOpen := true }
      [ServerMessage.sessionReady ["stun-a"],
       ServerMessage.sessionReady ["stun-a"]]).2 = 1 :=
  ⟨rfl, rfl, by decide,
   avatar_sdp_sent_once 0 { initialOrchState with wsOpen := true }
     [ServerMessage.sessionReady ["stun-a"], ServerMessage.sessionReady ["stun-a"]]
     rfl rfl (by decide)⟩

/-! ## C3 and C4: the reconnection loop -/

/-- Closed form of an uninterrupted run: k failing sockets then one that
opens, starting from counter c. -/
theorem reconnectWithBackoff_run (maxA : Nat) :
    ∀ (k c : Nat), c + k < maxA →
      reconnectWithBackoff maxA c true []
          (List.replicate k SocketOutcome.closes ++ [SocketOutcome.opens])
        = ((List.range (k + 1)).map (fun i => 1000 * 2 ^ (c + i)), k + 1, 0, false) := by
  intro k
  induction k with
  | zero =>
      intro c hc
      rw [reconnectWithBackoff]
      simp [Nat.not_le.mpr (by omega : c < maxA)]
      rw [show List.range 1 = [0] from rfl]
      simp
  | succ k ih =>
      intro c hc
      rw [reconnectWithBackoff]
      simp only [List.replicate_succ, List.cons_append]
      have hr := ih (c + 1) (by omega)
      simp [Nat.not_le.mpr (by omega : c < maxA), hr, List.range_succ_eq_map,
        List.map_cons, List.map_map]
      intro a ha
      omega

/-- C3: N consecutive unexpected closures with N below the attempt cap
produce exactly N reconnection attempts, waiting 1000 * 2 ^ i ms before
attempt i (strictly increasing), and the successful socket-open event resets
the attempt counter to 0 and ends the loop. -/
theorem reconnect_backoff_schedule (maxA N : Nat) (h1 : 0 < N) (h2 : N < maxA) :
    reconnectWithBackoff maxA 0 true []
        (List.replicate (N - 1) SocketOutcome.closes ++ [SocketOutcome.opens])
      = ((List.range N).map (fun i => 1000 * 2 ^ i), N, 0, false) ∧
    List.Pairwise (fun a b => a < b) ((List.range N).map (fun i => 1000 * 2 ^ i)) := by
  constructor
  · have hr := reconnectWithBackoff_run maxA (N - 1) 0 (by omega)
    have he : N - 1 + 1 = N := by omega
    rw [he] at hr
    simpa using hr
  · refine List.Pairwise.map _ ?_ (List.pairwise_lt_range N)
    intro a b hab
    have : (2 : Nat) ^ a < 2 ^ b := Nat.pow_lt_pow_right (by norm_num) hab
    omega

/-- Witness for C3 with three closures against a cap of five. -/
theorem reconnect_backoff_schedule_witness :
    reconnectWithBackoff 5 0 true []
        (List.replicate 2 SocketOutcome.closes ++ [SocketOutcome.opens])
      = ((List.range 3).map (fun i => 1000 * 2 ^ i), 3, 0, false) :=
  (reconnect_backoff_schedule 5 3 (by decide) (by decide)).1

/-- C4: a disconnect() landing during the pending backoff wait clears the
reconnect intent; the resumed loop observes it, creates no socket, and
returns, and any later invocation with the intent cleared does nothing. -/
theorem disconnect_cancels_reconnect (maxA a : Nat) (ws : List Bool)
    (o : List SocketOutcome) (h : a < maxA) :
    reconnectWithBackoff maxA a true (true :: ws) o = ([1000 * 2 ^ a], 0, 0, false) ∧
    (∀ (b : Nat) (w : List Bool) (oo : List SocketOutcome),
      reconnectWithBackoff maxA b false w oo = ([], 0, b, false)) ∧
    (∀ s : OrchState, (disconnectTransition s).shouldReconnect = false ∧
      (disconnectTransition s).reconnectAttempts = 0) := by
  refine ⟨?_, ?_, ?_⟩
  · rw [reconnectWithBackoff]
    simp [Nat.not_le.mpr h]
  · intro b w oo
    rw [reconnectWithBackoff]
    simp
  · intro s
    exact ⟨rfl, rfl⟩

/-- Witness for C4: the interrupted wait fires once, then nothing happens. -/
theorem disconnect_cancels_reconnect_witness :
    reconnectWithBackoff 5 1 true [true] [SocketOutcome.opens]
      = ([2000], 0, 0, false) ∧
    reconnectWithBackoff 5 4 false [] [] = ([], 0, 4, false) :=
  ⟨(disconnect_cancels_reconnect 5 1 [] [SocketOutcome.opens] (by decide)).1,
   (disconnect_cancels_reconnect 5 1 [] [] (by decide)).2.1 4 [] []⟩

/-! ## C7: createOffer waits at most 5 seconds -/

/-- C7: createOffer, when it returns, has suspended for the earlier of the
gathering-complete instant and the 5000 ms timeout, so never beyond 5000 ms,
and returns the committed local description. -/
theorem createOffer_wait_bounded (pc : PeerConnectionModel) (r : Nat × String)
    (h : createOffer pc = some r) :
    r.1 ≤ 5000 ∧
    (∀ t, pc.gatherCompleteAt = some t → r.1 = min t 5000) ∧
    (pc.gatherCompleteAt = none → r.1 = 5000) ∧
    r.2 = localOfferSdp := by
  unfold createOffer at h
  by_cases hinit : pc.isInit
  · rw [if_pos hinit, Option.some_inj] at h
    subst h
    refine ⟨?_, ?_, ?_, rfl⟩
    · unfold waitForIceGathering
      cases pc.gatherCompleteAt with
      | none => simp
      | some t => simp [Nat.min_le_right]
    · intro t ht
      unfold waitForIceGathering
      rw [ht]
    · intro ht
      unfold waitForIceGathering
      rw [ht]
  · rw [if_neg hinit] at h
    exact absurd h (by simp)

/-- Witness for C7: gathering never completes, the wait is exactly 5000. -/
theorem createOffer_wait_bounded_witness :
    createOffer { isInit := true, gatherCompleteAt := none } = some (5000, localOfferSdp) ∧
    (5000 : Nat) ≤ 5000 :=
  ⟨rfl, (createOffer_wait_bounded { isInit := true, gatherCompleteAt := none }
    (5000, localOfferSdp) rfl).1⟩

end DemoAvatar
